import Mathlib

/-!
# Verification of the orbital propagation engine

Shallow embedding of the propagation core of the comet-trajectory system:
the Keplerian element model and two-body transform (`app/models/orbital.py`,
`app/physics/propagator.py`), the N-body right-hand side and propagator
(`app/physics/nbody.py`), and the batch scheduler with its trajectory cache
(`app/physics/batch.py`).

Machine floats are modelled by real numbers; Python exceptions are modelled
by `Except`-valued functions.  External numerical libraries (scipy's
`solve_ivp`) are modelled abstractly as a supplied solver outcome, since only
the surrounding control flow belongs to this repository.
-/

noncomputable section

open Real

/-- 3-vectors of reals: positions and velocities in AU, AU/day
(`np.ndarray` of shape `(3,)` in the source). -/
abbrev Vec3 : Type := ℝ × ℝ × ℝ

/-- Euclidean norm of a 3-vector (`np.linalg.norm`). -/
def norm3 (v : Vec3) : ℝ := Real.sqrt (v.1 ^ 2 + v.2.1 ^ 2 + v.2.2 ^ 2)

/-- Elementwise division of a 3-vector by a scalar, as numpy's `v / c`. -/
def sdiv (v : Vec3) (c : ℝ) : Vec3 := (v.1 / c, v.2.1 / c, v.2.2 / c)

/-- Classical Keplerian orbital elements (`KeplerianElements` in
`app/models/orbital.py`).  Angles in radians, distances in AU, epoch in
Julian Date. -/
structure KeplerianElements where
  semi_major_axis : ℝ
  eccentricity : ℝ
  inclination : ℝ
  longitude_ascending_node : ℝ
  argument_of_perihelion : ℝ
  mean_anomaly : ℝ
  epoch : ℝ

/-- Cartesian state vector (`StateVector` in `app/models/orbital.py`):
position (AU), velocity (AU/day), time (Julian Date). -/
structure StateVector where
  position : Vec3
  velocity : Vec3
  time : ℝ

/-- Heliocentric distance of a state (`StateVector.distance`). -/
def StateVector.distance (s : StateVector) : ℝ := norm3 s.position

/-- GM of the Sun in AU³/day², the constant `GM_SUN` / `mu` of the source. -/
def GM_SUN : ℝ := 0.0002959122082855911

/-- `KeplerianElements.orbital_period`: the source returns the Python float
`inf` for `e ≥ 1` and `365.25 * a ** 1.5` days otherwise.  The float
infinity is modelled as `⊤ : EReal`. -/
def KeplerianElements.orbital_period (el : KeplerianElements) : EReal :=
  if 1 ≤ el.eccentricity then ⊤
  else ((365.25 * el.semi_major_axis ^ (1.5 : ℝ) : ℝ) : EReal)

/-- The real value of the period in the elliptical branch (`e < 1`), the
number the source's arithmetic continues with. -/
def KeplerianElements.orbital_period_days (el : KeplerianElements) : ℝ :=
  365.25 * el.semi_major_axis ^ (1.5 : ℝ)

/-- One Newton-Raphson step for Kepler's equation,
`E ← E - (E - e·sin E - M) / (1 - e·cos E)`, the loop body of
`solve_kepler_equation` in `app/models/orbital.py`. -/
def newtonStep (M e E : ℝ) : ℝ :=
  E - (E - e * Real.sin E - M) / (1 - e * Real.cos E)

/-- The fueled iteration loop of `solve_kepler_equation`: perform a Newton
step, return the new iterate as soon as two successive iterates differ by
less than the tolerance, and return the last estimate when the fuel (the
`max_iter` bound) runs out. -/
def solveKeplerLoop (M e tol : ℝ) : ℕ → ℝ → ℝ
  | 0, E => E
  | fuel + 1, E =>
    let En := newtonStep M e E
    if |En - E| < tol then En else solveKeplerLoop M e tol fuel En

/-- `solve_kepler_equation(M, e)` from `app/models/orbital.py`: Newton-Raphson
with initial guess `M` if `e < 0.8` else `π`, tolerance `1e-10`, at most 100
iterations, silently returning the last estimate on non-convergence. -/
def solve_kepler_equation (M e : ℝ) : ℝ :=
  solveKeplerLoop M e 1e-10 100 (if e < 0.8 then M else Real.pi)

/-- The pure Newton iterate sequence described by the specification:
`E₀` is the initial guess, `E_{k+1}` the Newton step from `E_k`. -/
def keplerSeq (M e : ℝ) : ℕ → ℝ
  | 0 => if e < 0.8 then M else Real.pi
  | k + 1 => newtonStep M e (keplerSeq M e k)

/-- Two-argument arctangent: `np.arctan2 y x` is the argument of the complex
number `x + y·i` (range `(-π, π]`, `atan2 0 0 = 0`, matching numpy). -/
def atan2 (y x : ℝ) : ℝ := Complex.arg ⟨x, y⟩

/-- The composed rotation from the orbital plane to the ecliptic frame used
by both `keplerian_to_cartesian` and `get_planet_position`: elementary
rotations by `Ω`, `i`, `ω` combined into a 3×2 matrix applied to in-plane
coordinates. -/
def applyRot (Omega i omega x_orb y_orb : ℝ) : Vec3 :=
  let cos_O := Real.cos Omega
  let sin_O := Real.sin Omega
  let cos_i := Real.cos i
  let sin_i := Real.sin i
  let cos_w := Real.cos omega
  let sin_w := Real.sin omega
  let R11 := cos_O * cos_w - sin_O * sin_w * cos_i
  let R12 := -cos_O * sin_w - sin_O * cos_w * cos_i
  let R21 := sin_O * cos_w + cos_O * sin_w * cos_i
  let R22 := -sin_O * sin_w + cos_O * cos_w * cos_i
  let R31 := sin_w * sin_i
  let R32 := cos_w * sin_i
  (R11 * x_orb + R12 * y_orb, R21 * x_orb + R22 * y_orb, R31 * x_orb + R32 * y_orb)

/-- `keplerian_to_cartesian(elements, time)` from `app/models/orbital.py`.
The Python function raises `NotImplementedError` for `e ≥ 1`; errors are
modelled by the `Except.error` branch carrying the exception message. -/
def keplerian_to_cartesian (elements : KeplerianElements) (time : ℝ) :
    Except String StateVector :=
  let a := elements.semi_major_axis
  let e := elements.eccentricity
  if e < 1 then
    let n := 2 * Real.pi / elements.orbital_period_days
    let M := elements.mean_anomaly + n * (time - elements.epoch)
    let E := solve_kepler_equation M e
    let nu := 2 * atan2 (Real.sqrt (1 + e) * Real.sin (E / 2))
                        (Real.sqrt (1 - e) * Real.cos (E / 2))
    let r := a * (1 - e * Real.cos E)
    let x_orb := r * Real.cos nu
    let y_orb := r * Real.sin nu
    let n2 := Real.sqrt (GM_SUN / a ^ 3)
    let vx_orb := -(a * n2 * Real.sin E) / (1 - e * Real.cos E)
    let vy_orb := a * n2 * Real.sqrt (1 - e ^ 2) * Real.cos E / (1 - e * Real.cos E)
    let pos := applyRot elements.longitude_ascending_node elements.inclination
                 elements.argument_of_perihelion x_orb y_orb
    let vel := applyRot elements.longitude_ascending_node elements.inclination
                 elements.argument_of_perihelion vx_orb vy_orb
    Except.ok { position := pos, velocity := vel, time := time }
  else
    Except.error "Hyperbolic/parabolic orbits not yet implemented"

/-- `TwoBodyPropagator` (`app/physics/propagator.py`): holds the elements it
was built from. -/
structure TwoBodyPropagator where
  elements : KeplerianElements

/-- `TwoBodyPropagator.propagate(time)`: delegates to
`keplerian_to_cartesian`. -/
def TwoBodyPropagator.propagate (p : TwoBodyPropagator) (time : ℝ) :
    Except String StateVector :=
  keplerian_to_cartesian p.elements time

/-! ## N-body model (`app/physics/nbody.py`) -/

/-- The perturbing planets known to `app/physics/nbody.py`. -/
inductive Planet
  | jupiter
  | saturn
  | uranus
  | neptune
deriving DecidableEq

/-- `PLANET_MASSES`: planetary masses relative to the Sun. -/
def PLANET_MASSES : Planet → ℝ
  | .jupiter => 9.5479194e-04
  | .saturn => 2.8588567e-04
  | .uranus => 4.3662440e-05
  | .neptune => 5.1513890e-05

/-- One entry of the `PLANET_ELEMENTS` table: mean elements at J2000 plus
mean motion in rad/day. -/
structure PlanetElems where
  a : ℝ
  e : ℝ
  i : ℝ
  Omega : ℝ
  omega : ℝ
  M0 : ℝ
  n : ℝ

/-- `np.radians`: degrees to radians. -/
def radians (d : ℝ) : ℝ := d * Real.pi / 180

/-- `PLANET_ELEMENTS`: simplified mean planetary elements (J2000) from
`app/physics/nbody.py`. -/
def PLANET_ELEMENTS : Planet → PlanetElems
  | .jupiter =>
    ⟨5.2038, 0.0489, radians 1.303, radians 100.464, radians 273.867,
      radians 20.020, 2 * Real.pi / (11.862 * 365.25)⟩
  | .saturn =>
    ⟨9.5826, 0.0565, radians 2.485, radians 113.665, radians 339.392,
      radians 317.020, 2 * Real.pi / (29.457 * 365.25)⟩
  | .uranus =>
    ⟨19.2184, 0.0457, radians 0.773, radians 74.006, radians 96.998,
      radians 142.238, 2 * Real.pi / (84.011 * 365.25)⟩
  | .neptune =>
    ⟨30.1104, 0.0113, radians 1.770, radians 131.784, radians 276.336,
      radians 256.228, 2 * Real.pi / (164.79 * 365.25)⟩

/-- `J2000` reference epoch in Julian Date. -/
def J2000 : ℝ := 2451545.0

/-- `solve_kepler` in `app/physics/nbody.py` is a verbatim copy of
`solve_kepler_equation` (tolerance `1e-10`, 100 iterations). -/
def solve_kepler (M e : ℝ) : ℝ := solve_kepler_equation M e

/-- Python `a % b` on floats: `a - b * ⌊a / b⌋` (sign follows the divisor,
matching `M % (2 * np.pi)` in the source). -/
def pymod (a b : ℝ) : ℝ := a - b * ⌊a / b⌋

/-- `get_planet_position(planet, time, use_spice)` from `app/physics/nbody.py`
on its analytic-fallback path (the SPICE lookup is an external data source;
with no kernel loaded — and always when `use_spice=False`, the configuration
used by the batch layer — the function computes the position below from the
mean-element table). -/
def get_planet_position (p : Planet) (time : ℝ) : Vec3 :=
  let elem := PLANET_ELEMENTS p
  let dt := time - J2000
  let M := pymod (elem.M0 + elem.n * dt) (2 * Real.pi)
  let E := solve_kepler M elem.e
  let nu := 2 * atan2 (Real.sqrt (1 + elem.e) * Real.sin (E / 2))
                      (Real.sqrt (1 - elem.e) * Real.cos (E / 2))
  let r := elem.a * (1 - elem.e * Real.cos E)
  applyRot elem.Omega elem.i elem.omega (r * Real.cos nu) (r * Real.sin nu)

/-- `nbody_derivatives(t, state, planets)` from `app/physics/nbody.py`:
state is `[x, y, z, vx, vy, vz]` (modelled as a position/velocity pair, the
first thing the source splits it into); the result is `[vx, vy, vz, ax, ay,
az]`.  The planetary loop accumulates
`GM_planet * (r_cp / |r_cp|³ - planet_pos / |planet_pos|³)`. -/
def nbody_derivatives (t : ℝ) (state : Vec3 × Vec3) (planets : List Planet) :
    Vec3 × Vec3 :=
  let pos := state.1
  let vel := state.2
  let r := norm3 pos
  let acc_sun := sdiv ((-GM_SUN) • pos) (r ^ 3)
  let acc_planets := planets.foldl
    (fun acc planet =>
      let planet_pos := get_planet_position planet t
      let r_cp := planet_pos - pos
      let r_cp_mag := norm3 r_cp
      let r_sp_mag := norm3 planet_pos
      let GM_planet := GM_SUN * PLANET_MASSES planet
      acc + GM_planet • (sdiv r_cp (r_cp_mag ^ 3) - sdiv planet_pos (r_sp_mag ^ 3)))
    (0 : Vec3)
  (vel, acc_sun + acc_planets)

/-- Outcome of one call to scipy's `solve_ivp`, which is external to this
repository: a success flag (`False` when the integrator diverges or its step
size collapses) and the dense-output interpolant `sol`.  `NBodyPropagator`
is modelled as parameterised by the solver outcome its `solve_ivp` call
produces. -/
structure IvpSolution where
  success : Bool
  sol : ℝ → Vec3 × Vec3

/-- `NBodyPropagator.propagate(time)` from `app/physics/nbody.py`: runs
`solve_ivp`, evaluates `solution.sol(time)` and wraps it in a `StateVector`.
The source inspects neither `solution.success` nor `solution.status`; an
`Except` result type records whether a failure is ever surfaced. -/
def NBodyPropagator.propagate (solution : IvpSolution) (time : ℝ) :
    Except String StateVector :=
  let final_state := solution.sol time
  Except.ok { position := final_state.1, velocity := final_state.2, time := time }

/-- `np.linspace(start, stop, num)`: `num` evenly spaced samples, endpoint
included (`num = 1` gives `[start]`, `num = 0` gives `[]`). -/
def linspace (s e : ℝ) (n : ℕ) : List ℝ :=
  (List.range n).map fun i : ℕ => s + (e - s) * (i : ℝ) / ((n : ℝ) - 1)

/-- `NBodyPropagator.propagate_range(start_time, end_time, num_points)` from
`app/physics/nbody.py`: clamps `start_time` up to the propagator's
`initial_time` (the element epoch), then samples `np.linspace(start_time,
end_time, num_points)` and returns one state per sample time.  The state
values come from the integrator (abstracted as `sol`, covering both the
`y0`-selection branch and the second `solve_ivp` call); the returned times
are the `t_eval` grid. -/
def NBodyPropagator.propagate_range (sol : ℝ → Vec3 × Vec3) (initial_time : ℝ)
    (start_time end_time : ℝ) (num_points : ℕ) : List StateVector :=
  let start' := if start_time < initial_time then initial_time else start_time
  (linspace start' end_time num_points).map fun t =>
    { position := (sol t).1, velocity := (sol t).2, time := t }

end

/-! ## Batch layer (`app/physics/batch.py`)

The batch scheduler manipulates strings, dictionaries and per-object results;
it treats the propagation of a single object as a black box.  It is modelled
computably, with request times as rationals (the exact values the Julian-Date
floats denote) and the per-object propagation supplied as a function
argument, so that every claim about the cache and error-capture logic is
settled for *every* deterministic propagation backend, the two-body and
N-body paths included. -/

/-- The fields of `Comet` (`app/models/comet.py`) the batch layer reads:
the designation and the optional orbital elements (`comet.elements` may be
`None`, the "no orbital elements" case). -/
structure Comet where
  designation : String
  elements : Option KeplerianElements

/-- `TrajectoryResult` from `app/physics/batch.py`.  The wall-clock
`calculation_time_ms` field is external nondeterminism (a `time.time()`
difference) and carries no trajectory content; it is not modelled. -/
structure TrajectoryResult where
  designation : String
  success : Bool
  trajectory : Option (List StateVector)
  error : Option String

/-- Lookup in a Python `dict` modelled as an association list (first match;
`dictInsert` keeps keys unique the way `dict` assignment does). -/
def dictLookup {α : Type} (l : List (String × α)) (k : String) : Option α :=
  (l.find? fun p => p.1 == k).map Prod.snd

/-- Python `dict` assignment `d[k] = v`: overwrite the existing binding in
place, else append. -/
def dictInsert {α : Type} : List (String × α) → String → α → List (String × α)
  | [], k, v => [(k, v)]
  | p :: rest, k, v =>
    if p.1 == k then (k, v) :: rest else p :: dictInsert rest k v

/-- Fold a list of key/value pairs into a dict, in order (Python dict
construction by repeated assignment). -/
def dictOfList {α : Type} (l : List (String × α)) : List (String × α) :=
  l.foldl (fun acc p => dictInsert acc p.1 p.2) []

/-- `calculate_single_trajectory(comet, start, end, n, method)` from
`app/physics/batch.py`, parameterised by the propagation backend
`propagate : elements → start → end → n → result-or-error` (the source
builds a `TwoBodyPropagator` or `NBodyPropagator` and calls
`propagate_range`; the `method` string selects which, and the backend
function receives it through partial application at the call site).  The
`try/except` wrapper turns a missing-elements comet or any raised exception
into a failed result carrying the error message; nothing propagates out. -/
def calculate_single_trajectory
    (propagate : KeplerianElements → ℚ → ℚ → ℕ → Except String (List StateVector))
    (comet : Comet) (start_time end_time : ℚ) (num_points : ℕ) :
    TrajectoryResult :=
  match comet.elements with
  | none =>
    { designation := comet.designation, success := false,
      trajectory := none, error := some "No orbital elements" }
  | some el =>
    match propagate el start_time end_time num_points with
    | Except.error msg =>
      { designation := comet.designation, success := false,
        trajectory := none, error := some msg }
    | Except.ok traj =>
      { designation := comet.designation, success := true,
        trajectory := some traj, error := none }

/-- `calculate_trajectories_sequential`: one result per comet, keyed by
designation. -/
def calculate_trajectories_sequential
    (propagate : KeplerianElements → ℚ → ℚ → ℕ → Except String (List StateVector))
    (comets : List Comet) (start_time end_time : ℚ) (num_points : ℕ) :
    List (String × TrajectoryResult) :=
  dictOfList (comets.map fun c =>
    (c.designation, calculate_single_trajectory propagate c start_time end_time num_points))

/-- `calculate_trajectories_parallel`: each comet is an independent unit of
work producing the same `calculate_single_trajectory` result (a worker
exception is also captured per-object, into the same designation).  The
resulting designation-keyed map is the one the sequential order produces;
only the `dict` insertion order depends on completion order, which no lookup
observes when designations are distinct. -/
def calculate_trajectories_parallel
    (propagate : KeplerianElements → ℚ → ℚ → ℕ → Except String (List StateVector))
    (comets : List Comet) (start_time end_time : ℚ) (num_points : ℕ) :
    List (String × TrajectoryResult) :=
  calculate_trajectories_sequential propagate comets start_time end_time num_points

/-- The rendering of a request time inside the f-string of
`_get_cache_key`.  Python renders `float` values; integral Julian-Date
choices render as `"<n>.0"`, which this model reproduces exactly (the
non-integral branch is a stand-in — no claim depends on its digits). -/
def qstr (q : ℚ) : String :=
  if q.den = 1 then toString q.num ++ ".0"
  else toString q.num ++ "/" ++ toString q.den

/-- `BatchTrajectoryCalculator._get_cache_key`:
`f"{designation}:{start}:{end}:{points}:{method}"`. -/
def get_cache_key (designation : String) (start_time end_time : ℚ)
    (points : ℕ) (method : String) : String :=
  designation ++ ":" ++ qstr start_time ++ ":" ++ qstr end_time ++ ":" ++
    toString points ++ ":" ++ method

/-- `BatchTrajectoryCalculator`: cache flag plus the trajectory cache
(`Dict[str, TrajectoryResult]`). -/
structure BatchTrajectoryCalculator where
  cache_enabled : Bool
  cache : List (String × TrajectoryResult)

/-- `BatchTrajectoryCalculator.calculate(comets, start, end, n, method,
parallel)`: split the comets into cache hits and misses, compute the misses
(`method` picks the backend inside `propagate`, already applied here),
merge hit results with the freshly computed `new_results` dict, and insert
every *successful* new result into the cache under its composite key.
Returns the results dict and the updated calculator. -/
def BatchTrajectoryCalculator.calculate
    (self : BatchTrajectoryCalculator)
    (propagate : KeplerianElements → ℚ → ℚ → ℕ → Except String (List StateVector))
    (comets : List Comet) (start_time end_time : ℚ) (num_points : ℕ)
    (method : String) :
    List (String × TrajectoryResult) × BatchTrajectoryCalculator :=
  let key := fun d => get_cache_key d start_time end_time num_points method
  let hits :=
    if self.cache_enabled then
      comets.filterMap fun c =>
        (dictLookup self.cache (key c.designation)).map fun r => (c.designation, r)
    else []
  let comets_to_calculate :=
    if self.cache_enabled then
      comets.filter fun c => (dictLookup self.cache (key c.designation)).isNone
    else comets
  let new_results :=
    dictOfList (comets_to_calculate.map fun c =>
      (c.designation, calculate_single_trajectory propagate c start_time end_time num_points))
  let results :=
    new_results.foldl (fun acc p => dictInsert acc p.1 p.2) (dictOfList hits)
  let new_cache :=
    if self.cache_enabled then
      new_results.foldl
        (fun cache p => if p.2.success then dictInsert cache (key p.1) p.2 else cache)
        self.cache
    else self.cache
  (results, { self with cache := new_cache })

/-- `BatchTrajectoryCalculator.clear_cache()`. -/
def BatchTrajectoryCalculator.clear_cache (self : BatchTrajectoryCalculator) :
    BatchTrajectoryCalculator :=
  { self with cache := [] }

/-- `BatchTrajectoryCalculator.get_cache_size()`: a pure read of the cache;
it does not modify the calculator. -/
def BatchTrajectoryCalculator.get_cache_size (self : BatchTrajectoryCalculator) : ℕ :=
  self.cache.length

/-- The cache invariant of claim C9: every stored entry is a successful
result. -/
def CacheOK (cache : List (String × TrajectoryResult)) : Prop :=
  ∀ p ∈ cache, p.2.success = true

/-! ## Helper lemmas -/

theorem dictLookup_cons {α : Type} (p : String × α) (rest : List (String × α))
    (k : String) :
    dictLookup (p :: rest) k = if p.1 == k then some p.2 else dictLookup rest k := by
  by_cases h : p.1 == k <;> simp [dictLookup, List.find?_cons, h]

theorem dictLookup_dictInsert_self {α : Type} (l : List (String × α))
    (k : String) (v : α) :
    dictLookup (dictInsert l k v) k = some v := by
  induction l with
  | nil => simp [dictInsert, dictLookup, List.find?]
  | cons p rest ih =>
    by_cases h : p.1 == k
    · simp [dictInsert, h, dictLookup_cons]
    · simp only [dictInsert, h, if_false, Bool.false_eq_true, ite_false,
        dictLookup_cons, ih]

theorem dictLookup_dictInsert_ne {α : Type} (l : List (String × α))
    {k k' : String} (v : α) (h : k' ≠ k) :
    dictLookup (dictInsert l k v) k' = dictLookup l k' := by
  induction l with
  | nil =>
    have hb : (k == k') = false := beq_eq_false_iff_ne.mpr (Ne.symm h)
    simp [dictInsert, dictLookup, List.find?, hb]
  | cons p rest ih =>
    by_cases hp : p.1 == k
    · have hpk : p.1 = k := by simpa using hp
      rw [dictInsert, if_pos hp, dictLookup_cons, dictLookup_cons]
      have : (k == k') = false := beq_eq_false_iff_ne.mpr (Ne.symm h)
      rw [hpk, this]
      simp
    · rw [dictInsert, if_neg (by simpa using hp), dictLookup_cons, dictLookup_cons, ih]

theorem dictInsert_of_key_not_mem {α : Type} (l : List (String × α))
    (k : String) (v : α) (h : ∀ p ∈ l, p.1 ≠ k) :
    dictInsert l k v = l ++ [(k, v)] := by
  induction l with
  | nil => rfl
  | cons p rest ih =>
    have hp : (p.1 == k) = false := beq_eq_false_iff_ne.mpr (h p (by simp))
    rw [dictInsert, if_neg (by simp [hp]), ih fun q hq => h q (by simp [hq])]
    simp

theorem foldl_dictInsert_lookup_not_mem {α : Type} (l : List (String × α))
    (init : List (String × α)) (k : String) (h : ∀ p ∈ l, p.1 ≠ k) :
    dictLookup (l.foldl (fun acc p => dictInsert acc p.1 p.2) init) k =
      dictLookup init k := by
  induction l generalizing init with
  | nil => rfl
  | cons p rest ih =>
    rw [List.foldl_cons, ih _ fun q hq => h q (by simp [hq]),
      dictLookup_dictInsert_ne _ _ (Ne.symm (h p (by simp)))]

theorem foldl_dictInsert_lookup_mem {α : Type} (l : List (String × α))
    (init : List (String × α)) (k : String) (v : α)
    (hnd : (l.map Prod.fst).Nodup) (hmem : (k, v) ∈ l) :
    dictLookup (l.foldl (fun acc p => dictInsert acc p.1 p.2) init) k = some v := by
  induction l generalizing init with
  | nil => simp at hmem
  | cons p rest ih =>
    rw [List.map_cons, List.nodup_cons] at hnd
    rw [List.foldl_cons]
    rcases List.mem_cons.mp hmem with heq | hmem
    · subst heq
      have hnotin : ∀ q ∈ rest, q.1 ≠ (k, v).1 := by
        intro q hq hqk
        exact hnd.1 (hqk ▸ List.mem_map_of_mem Prod.fst hq)
      rw [foldl_dictInsert_lookup_not_mem _ _ _ hnotin]
      exact dictLookup_dictInsert_self init k v
    · exact ih _ hnd.2 hmem

theorem foldl_dictInsert_append {α : Type} (l : List (String × α))
    (init : List (String × α)) (hnd : (l.map Prod.fst).Nodup)
    (hdis : ∀ p ∈ l, ∀ q ∈ init, q.1 ≠ p.1) :
    l.foldl (fun acc p => dictInsert acc p.1 p.2) init = init ++ l := by
  induction l generalizing init with
  | nil => simp
  | cons p rest ih =>
    rw [List.map_cons, List.nodup_cons] at hnd
    rw [List.foldl_cons, dictInsert_of_key_not_mem _ _ _
      (fun q hq => hdis p (by simp) q hq)]
    rw [ih _ hnd.2]
    · simp
    · intro r hr q hq
      rcases List.mem_append.mp hq with hq | hq
      · exact hdis r (by simp [hr]) q hq
      · simp only [List.mem_singleton] at hq
        subst hq
        exact fun hc => hnd.1 (hc ▸ List.mem_map_of_mem Prod.fst hr)

theorem dictOfList_eq_self {α : Type} (l : List (String × α))
    (hnd : (l.map Prod.fst).Nodup) : dictOfList l = l := by
  rw [dictOfList, foldl_dictInsert_append l [] hnd (by simp)]
  simp

theorem string_append_left_inj (t : String) {s₁ s₂ : String}
    (h : s₁ ++ t = s₂ ++ t) : s₁ = s₂ := by
  have hd : s₁.data ++ t.data = s₂.data ++ t.data := by
    have := congrArg String.data h
    simpa using this
  have h2 := List.append_cancel_right hd
  cases s₁; cases s₂
  exact congrArg String.mk (by simpa using h2)

theorem CacheOK_dictInsert (l : List (String × TrajectoryResult)) (k : String)
    (v : TrajectoryResult) (hl : CacheOK l) (hv : v.success = true) :
    CacheOK (dictInsert l k v) := by
  induction l with
  | nil =>
    intro p hp
    have : p = (k, v) := by simpa [dictInsert] using hp
    rw [this]
    exact hv
  | cons q rest ih =>
    intro p hp
    rw [dictInsert] at hp
    by_cases hq : q.1 == k
    · rw [if_pos hq] at hp
      rcases List.mem_cons.mp hp with h | h
      · exact h ▸ hv
      · exact hl p (List.mem_cons_of_mem q h)
    · rw [if_neg hq] at hp
      rcases List.mem_cons.mp hp with h | h
      · exact hl p (h ▸ List.mem_cons_self q rest)
      · exact ih (fun r hr => hl r (List.mem_cons_of_mem q hr)) p h

/-- The cache-update fold of `BatchTrajectoryCalculator.calculate` preserves
the all-successful invariant: only results with `success = true` are
inserted. -/
theorem cacheFold_preserves_CacheOK (kf : String → String)
    (l : List (String × TrajectoryResult))
    (init : List (String × TrajectoryResult)) (h : CacheOK init) :
    CacheOK (l.foldl
      (fun cache p => if p.2.success then dictInsert cache (kf p.1) p.2 else cache)
      init) := by
  induction l generalizing init with
  | nil => exact h
  | cons p rest ih =>
    rw [List.foldl_cons]
    by_cases hs : p.2.success
    · rw [if_pos hs]
      exact ih _ (CacheOK_dictInsert init (kf p.1) p.2 h hs)
    · rw [if_neg hs]
      exact ih _ h

/-- The cache-update fold does not touch a key that no successful entry of
the processed list maps to. -/
theorem cacheFold_lookup_untouched (kf : String → String)
    (l : List (String × TrajectoryResult))
    (init : List (String × TrajectoryResult)) (k : String)
    (h : ∀ p ∈ l, p.2.success = true → kf p.1 ≠ k) :
    dictLookup (l.foldl
      (fun cache p => if p.2.success then dictInsert cache (kf p.1) p.2 else cache)
      init) k = dictLookup init k := by
  induction l generalizing init with
  | nil => rfl
  | cons p rest ih =>
    rw [List.foldl_cons]
    by_cases hs : p.2.success
    · rw [if_pos hs, ih _ fun q hq => h q (by simp [hq]),
        dictLookup_dictInsert_ne _ _ (Ne.symm (h p (by simp) hs))]
    · rw [if_neg hs, ih _ fun q hq => h q (by simp [hq])]

/-- Lookup after the cache-update fold, at the key of a processed entry:
present iff the entry succeeded (given a key function injective on the
pairwise-distinct designations being folded). -/
theorem cacheFold_lookup_mem (kf : String → String)
    (hinj : ∀ d₁ d₂, kf d₁ = kf d₂ → d₁ = d₂)
    (l : List (String × TrajectoryResult))
    (init : List (String × TrajectoryResult)) (d : String) (r : TrajectoryResult)
    (hnd : (l.map Prod.fst).Nodup) (hmem : (d, r) ∈ l) :
    dictLookup (l.foldl
      (fun cache p => if p.2.success then dictInsert cache (kf p.1) p.2 else cache)
      init) (kf d) =
      if r.success then some r else dictLookup init (kf d) := by
  induction l generalizing init with
  | nil => simp at hmem
  | cons p rest ih =>
    rw [List.map_cons, List.nodup_cons] at hnd
    rw [List.foldl_cons]
    rcases List.mem_cons.mp hmem with heq | hmem
    · subst heq
      have huntouched : ∀ q ∈ rest, q.2.success = true → kf q.1 ≠ kf (d, r).1 := by
        intro q hq _ hk
        exact hnd.1 (hinj q.1 (d, r).1 hk ▸ List.mem_map_of_mem Prod.fst hq)
      rw [cacheFold_lookup_untouched kf rest _ _ huntouched]
      by_cases hs : r.success
      · rw [if_pos hs]
        simp only [hs, if_true]
        exact dictLookup_dictInsert_self init (kf d) r
      · rw [if_neg (by simpa using hs), if_neg hs]
    · have hne : kf p.1 ≠ kf d := by
        intro hk
        exact hnd.1 (hinj p.1 d hk ▸ List.mem_map_of_mem Prod.fst hmem)
      by_cases hs : p.2.success
      · rw [if_pos hs, ih _ hnd.2 hmem, dictLookup_dictInsert_ne _ _ (Ne.symm hne)]
      · rw [if_neg hs, ih _ hnd.2 hmem]

/-- Keys extracted from a designation-keyed `filterMap` form a sublist of the
designations, so distinct designations give distinct keys. -/
theorem filterMap_fst_sublist {β : Type} (f : Comet → Option (String × β))
    (l : List Comet) (hf : ∀ c p, f c = some p → p.1 = c.designation) :
    ((l.filterMap f).map Prod.fst).Sublist (l.map Comet.designation) := by
  induction l with
  | nil => simp
  | cons c rest ih =>
    rw [List.filterMap_cons]
    cases hc : f c with
    | none => exact (List.map_cons _ _ _ ▸ (ih).cons c.designation)
    | some p =>
      rw [List.map_cons, List.map_cons, hf c p hc]
      exact ih.cons₂ _

/-- For a fixed request `(start, end, points, method)`, the composite cache
key is injective in the designation: the tail of the colon-joined string is
a common suffix. -/
theorem get_cache_key_inj_designation {d₁ d₂ : String} (s e : ℚ) (p : ℕ)
    (m : String)
    (h : get_cache_key d₁ s e p m = get_cache_key d₂ s e p m) : d₁ = d₂ := by
  have hd := congrArg String.data h
  simp only [get_cache_key, String.data_append, List.append_assoc] at hd
  have h2 := List.append_cancel_right hd
  cases d₁; cases d₂
  exact congrArg String.mk (by simpa using h2)

/-- Left-folded vector accumulation (`acc_planets += term` in a loop) equals
the sum over the list. -/
theorem foldl_add_eq_sum {α : Type} (f : α → Vec3) (l : List α) (init : Vec3) :
    l.foldl (fun acc x => acc + f x) init = init + (l.map f).sum := by
  induction l generalizing init with
  | nil => simp
  | cons x xs ih => rw [List.foldl_cons, List.map_cons, List.sum_cons, ih, add_assoc]

/-- The fueled Newton loop, started at the `s`-th pure iterate, either stops
at the first in-budget index where two successive iterates get within `tol`
of each other and returns the newer iterate, or exhausts its fuel and
returns the iterate it reached. -/
theorem solveKeplerLoop_spec (M e tol : ℝ) :
    ∀ (fuel s : ℕ),
      (∃ k, k < fuel ∧
        |keplerSeq M e (s + k + 1) - keplerSeq M e (s + k)| < tol ∧
        (∀ j, j < k → ¬(|keplerSeq M e (s + j + 1) - keplerSeq M e (s + j)| < tol)) ∧
        solveKeplerLoop M e tol fuel (keplerSeq M e s) = keplerSeq M e (s + k + 1)) ∨
      ((∀ j, j < fuel → ¬(|keplerSeq M e (s + j + 1) - keplerSeq M e (s + j)| < tol)) ∧
        solveKeplerLoop M e tol fuel (keplerSeq M e s) = keplerSeq M e (s + fuel)) := by
  intro fuel
  induction fuel with
  | zero =>
    intro s
    exact Or.inr ⟨fun j hj => absurd hj (Nat.not_lt_zero j), rfl⟩
  | succ n ih =>
    intro s
    have hstep : newtonStep M e (keplerSeq M e s) = keplerSeq M e (s + 1) := rfl
    have hunfold : ∀ E, solveKeplerLoop M e tol (n + 1) E =
        if |newtonStep M e E - E| < tol then newtonStep M e E
        else solveKeplerLoop M e tol n (newtonStep M e E) := fun E => rfl
    by_cases hstop : |keplerSeq M e (s + 1) - keplerSeq M e s| < tol
    · refine Or.inl ⟨0, Nat.succ_pos n, by simpa using hstop,
        fun j hj => absurd hj (Nat.not_lt_zero j), ?_⟩
      rw [hunfold, hstep, if_pos hstop]
    · have hloop : solveKeplerLoop M e tol (n + 1) (keplerSeq M e s) =
          solveKeplerLoop M e tol n (keplerSeq M e (s + 1)) := by
        rw [hunfold, hstep, if_neg hstop]
      rcases ih (s + 1) with ⟨k, hk, hs1, hmin, heq⟩ | ⟨hall, heq⟩
      · refine Or.inl ⟨k + 1, Nat.succ_lt_succ hk, ?_, ?_, ?_⟩
        · have : s + 1 + k = s + (k + 1) := by omega
          rw [← this]
          exact hs1
        · intro j hj
          match j with
          | 0 => simpa using hstop
          | j' + 1 =>
            have : s + 1 + j' = s + (j' + 1) := by omega
            rw [← this]
            exact hmin j' (by omega)
        · rw [hloop, heq]
          congr 1
          omega
      · refine Or.inr ⟨?_, ?_⟩
        · intro j hj
          match j with
          | 0 => simpa using hstop
          | j' + 1 =>
            have : s + 1 + j' = s + (j' + 1) := by omega
            rw [← this]
            exact hall j' (by omega)
        · rw [hloop, heq]
          congr 1
          omega


/-! ## Claim theorems -/

/-- C1: for every element set and time, the two-body closed-form path
(`TwoBodyPropagator.propagate`, i.e. `keplerian_to_cartesian`) raises the
unsupported-orbit-regime error (`NotImplementedError`) whenever `e ≥ 1` and
never returns a state vector there; for `e < 1` it returns a state vector
without raising. -/
theorem keplerian_to_cartesian_regime (elements : KeplerianElements) (t : ℝ) :
    (1 ≤ elements.eccentricity →
      TwoBodyPropagator.propagate ⟨elements⟩ t =
        Except.error "Hyperbolic/parabolic orbits not yet implemented") ∧
    (elements.eccentricity < 1 →
      ∃ s : StateVector, TwoBodyPropagator.propagate ⟨elements⟩ t = Except.ok s) := by
  constructor
  · intro h
    simp only [TwoBodyPropagator.propagate, keplerian_to_cartesian,
      if_neg (not_lt.mpr h)]
  · intro h
    simp only [TwoBodyPropagator.propagate, keplerian_to_cartesian, if_pos h]
    exact ⟨_, rfl⟩

/-- Witness for C1: a hyperbolic element set (`e = 2`) errors, a circular one
(`e = 0`) produces a state. -/
theorem keplerian_to_cartesian_regime_witness :
    TwoBodyPropagator.propagate ⟨⟨1, 2, 0, 0, 0, 0, 0⟩⟩ 0 =
      Except.error "Hyperbolic/parabolic orbits not yet implemented" ∧
    ∃ s : StateVector, TwoBodyPropagator.propagate ⟨⟨1, 0, 0, 0, 0, 0, 0⟩⟩ 0 =
      Except.ok s :=
  ⟨(keplerian_to_cartesian_regime ⟨1, 2, 0, 0, 0, 0, 0⟩ 0).1 one_le_two,
   (keplerian_to_cartesian_regime ⟨1, 0, 0, 0, 0, 0, 0⟩ 0).2 zero_lt_one⟩

/-- C2: `nbody_derivatives` returns the velocity followed by the acceleration
`-μ_sun·r/|r|³ + Σ_p μ_p·((r_p - r)/|r_p - r|³ - r_p/|r_p|³)`, where `r_p` is
the planet position at time `t`; in particular the indirect solar-recoil term
`-μ_p·r_p/|r_p|³` is present for every configured planet. -/
theorem nbody_derivatives_formula (t : ℝ) (state : Vec3 × Vec3)
    (planets : List Planet) :
    nbody_derivatives t state planets =
      (state.2,
        sdiv ((-GM_SUN) • state.1) (norm3 state.1 ^ 3) +
          (planets.map fun p =>
            (GM_SUN * PLANET_MASSES p) •
              (sdiv (get_planet_position p t - state.1)
                  (norm3 (get_planet_position p t - state.1) ^ 3) -
                sdiv (get_planet_position p t)
                  (norm3 (get_planet_position p t) ^ 3))).sum) := by
  simp only [nbody_derivatives]
  rw [foldl_add_eq_sum, zero_add]

/-- C3: `solve_kepler_equation` starts from `E₀ = M` when `e < 0.8` and
`E₀ = π` otherwise, applies Newton steps
`E ← E - (E - e·sin E - M)/(1 - e·cos E)`, returns the new iterate at the
first step where two successive iterates differ by less than `1e-10`, and
after 100 full iterations without meeting the tolerance returns its last
estimate (a total function: no error, no non-convergence signal). -/
theorem solve_kepler_equation_newton_spec (M e : ℝ) :
    keplerSeq M e 0 = (if e < 0.8 then M else Real.pi) ∧
    (∀ k, keplerSeq M e (k + 1) =
      keplerSeq M e k -
        (keplerSeq M e k - e * Real.sin (keplerSeq M e k) - M) /
          (1 - e * Real.cos (keplerSeq M e k))) ∧
    ((∃ k, k < 100 ∧ |keplerSeq M e (k + 1) - keplerSeq M e k| < 1e-10 ∧
        (∀ j, j < k → ¬(|keplerSeq M e (j + 1) - keplerSeq M e j| < 1e-10)) ∧
        solve_kepler_equation M e = keplerSeq M e (k + 1)) ∨
      ((∀ j, j < 100 → ¬(|keplerSeq M e (j + 1) - keplerSeq M e j| < 1e-10)) ∧
        solve_kepler_equation M e = keplerSeq M e 100)) := by
  refine ⟨rfl, fun k => rfl, ?_⟩
  have h := solveKeplerLoop_spec M e 1e-10 100 0
  simpa [solve_kepler_equation] using h

/-- C8 (code bug): `NBodyPropagator.propagate` builds its return value from
`solution.sol(time)` without inspecting the solver's success flag, so an
integration failure is never reported to the caller: even a failed solver
outcome yields `Except.ok`. -/
theorem nbody_propagate_ignores_solver_failure (sol : ℝ → Vec3 × Vec3) (t : ℝ) :
    NBodyPropagator.propagate ⟨false, sol⟩ t =
      Except.ok { position := (sol t).1, velocity := (sol t).2, time := t } := rfl

/-- Counterexample to C4 as stated: at `a = 1, e = 0` the accessor returns
`365.25` days, whereas `2π·√(a³/μ)` with `μ = 0.0002959122082855911 AU³/day²`
is `≈ 365.2569` days — the code uses the calendar-year constant `365.25`,
not the exact Kepler law. -/
theorem orbital_period_not_kepler_law :
    KeplerianElements.orbital_period ⟨1, 0, 0, 0, 0, 0, 0⟩ ≠
      ((2 * Real.pi * Real.sqrt (1 ^ 3 / GM_SUN) : ℝ) : EReal) := by
  have hval : KeplerianElements.orbital_period ⟨1, 0, 0, 0, 0, 0, 0⟩ =
      ((365.25 : ℝ) : EReal) := by
    rw [KeplerianElements.orbital_period]
    rw [if_neg (by norm_num)]
    norm_num [Real.one_rpow]
  rw [hval, ne_eq, EReal.coe_eq_coe_iff]
  intro hc
  have hs : (58.132 : ℝ) < Real.sqrt (1 ^ 3 / GM_SUN) := by
    rw [Real.lt_sqrt (by norm_num)]
    rw [GM_SUN]
    norm_num
  have hpi : (3.141592 : ℝ) < Real.pi := Real.pi_gt_d6
  have h1 : (3.141592 : ℝ) * 58.132 < Real.pi * Real.sqrt (1 ^ 3 / GM_SUN) := by
    have ha := mul_lt_mul_of_pos_right hpi (show (0:ℝ) < 58.132 by norm_num)
    have hb := mul_lt_mul_of_pos_left hs Real.pi_pos
    linarith
  linarith

/-- C4 amended: `orbital_period` returns `365.25 · a^{3/2}` days for `e < 1`
(the calendar-year approximation of Kepler's third law `2π√(a³/μ)`, whose
exact value for `μ = 0.0002959122082855911` and `a = 1` lies within `0.01`
days of `365.25`), and the distinguished unbounded value `⊤` (float `inf`)
for `e ≥ 1`, never an ordinary number. -/
theorem orbital_period_formula (el : KeplerianElements) :
    (1 ≤ el.eccentricity → el.orbital_period = ⊤) ∧
    (el.eccentricity < 1 →
      el.orbital_period =
        ((365.25 * el.semi_major_axis ^ (1.5 : ℝ) : ℝ) : EReal) ∧
      el.orbital_period ≠ ⊤) ∧
    |365.25 - 2 * Real.pi * Real.sqrt (1 / GM_SUN)| < 0.01 := by
  refine ⟨?_, ?_, ?_⟩
  · intro h
    rw [KeplerianElements.orbital_period, if_pos h]
  · intro h
    rw [KeplerianElements.orbital_period, if_neg (not_le.mpr h)]
    exact ⟨rfl, EReal.coe_ne_top _⟩
  · have hsl : (58.132 : ℝ) < Real.sqrt (1 / GM_SUN) := by
      rw [Real.lt_sqrt (by norm_num)]
      rw [GM_SUN]
      norm_num
    have hsu : Real.sqrt (1 / GM_SUN) < 58.1325 := by
      rw [Real.sqrt_lt' (by norm_num)]
      rw [GM_SUN]
      norm_num
    have hspos : (0 : ℝ) < Real.sqrt (1 / GM_SUN) := by linarith
    have hpil : (3.141592 : ℝ) < Real.pi := Real.pi_gt_d6
    have hpiu : Real.pi < 3.141593 := Real.pi_lt_d6
    have h1 : (3.141592 : ℝ) * 58.132 < Real.pi * Real.sqrt (1 / GM_SUN) := by
      have ha := mul_lt_mul_of_pos_right hpil (show (0:ℝ) < 58.132 by norm_num)
      have hb := mul_lt_mul_of_pos_left hsl Real.pi_pos
      linarith
    have h2 : Real.pi * Real.sqrt (1 / GM_SUN) < 3.141593 * 58.1325 := by
      have ha := mul_lt_mul_of_pos_right hpiu hspos
      have hb := mul_lt_mul_of_pos_left hsu (show (0:ℝ) < 3.141593 by norm_num)
      linarith
    rw [abs_lt]
    constructor <;> linarith

/-- Witness for C4 amended: a hyperbolic set maps to `⊤`, a circular `a = 1`
set maps to the finite approximate period. -/
theorem orbital_period_formula_witness :
    KeplerianElements.orbital_period ⟨1, 2, 0, 0, 0, 0, 0⟩ = ⊤ ∧
    KeplerianElements.orbital_period ⟨1, 0, 0, 0, 0, 0, 0⟩ =
      ((365.25 * (1 : ℝ) ^ (1.5 : ℝ) : ℝ) : EReal) :=
  ⟨(orbital_period_formula ⟨1, 2, 0, 0, 0, 0, 0⟩).1 one_le_two,
   ((orbital_period_formula ⟨1, 0, 0, 0, 0, 0, 0⟩).2.1 zero_lt_one).1⟩

/-- Counterexample to C10 as stated: epoch (initial time) 10, requested range
`[0, 5]` (so `start_time < epoch` but also `end_time < epoch`), 2 points.
The clamp moves the start to the epoch, and the sampled grid runs backward
from 10 down to 5 — the second returned state has time `5 < 10`, so it is
not true that no returned state has a time before the element epoch. -/
theorem propagate_range_time_before_epoch :
    ¬ (∀ st ∈ NBodyPropagator.propagate_range
          (fun _ => ((0, 0, 0), (0, 0, 0))) 10 0 5 2,
        (10 : ℝ) ≤ st.time) := by
  intro h
  have hlist : NBodyPropagator.propagate_range
      (fun _ => ((0, 0, 0), (0, 0, 0))) 10 0 5 2 =
      [{ position := (0, 0, 0), velocity := (0, 0, 0), time := 10 },
       { position := (0, 0, 0), velocity := (0, 0, 0), time := 5 }] := by
    simp only [NBodyPropagator.propagate_range, if_pos (show (0:ℝ) < 10 by norm_num),
      linspace, show List.range 2 = [0, 1] from rfl, List.map_cons, List.map_nil]
    norm_num
  have h5 := h { position := (0, 0, 0), velocity := (0, 0, 0), time := 5 }
    (by rw [hlist]; simp)
  norm_num at h5

/-- Head of a nonempty linspace grid: the start value. -/
theorem linspace_head (s e : ℝ) (m : ℕ) : (linspace s e (m + 1)).head? = some s := by
  rw [linspace, List.range_succ_eq_map]
  norm_num

/-- C10 amended: when `start_time < epoch`, `propagate_range` silently clamps
the start up to the epoch and samples `linspace(epoch, end_time, n)`: the
first returned time is the epoch, and — provided `end_time ≥ epoch` — every
returned time lies in `[epoch, end_time]` (when `end_time < epoch` the grid
runs backward from the epoch, so later samples precede the epoch). -/
theorem propagate_range_clamps_start (sol : ℝ → Vec3 × Vec3)
    (initial_time start_time end_time : ℝ) (n : ℕ)
    (hs : start_time < initial_time) (hn : 1 ≤ n) :
    ((NBodyPropagator.propagate_range sol initial_time start_time end_time n).map
        StateVector.time = linspace initial_time end_time n) ∧
    ((NBodyPropagator.propagate_range sol initial_time start_time end_time n).head?.map
        StateVector.time = some initial_time) ∧
    (initial_time ≤ end_time →
      ∀ st ∈ NBodyPropagator.propagate_range sol initial_time start_time end_time n,
        initial_time ≤ st.time ∧ st.time ≤ end_time) := by
  obtain ⟨m, rfl⟩ : ∃ m, n = m + 1 := ⟨n - 1, by omega⟩
  have hmap : (NBodyPropagator.propagate_range sol initial_time start_time end_time
      (m + 1)).map StateVector.time = linspace initial_time end_time (m + 1) := by
    simp only [NBodyPropagator.propagate_range, if_pos hs, List.map_map]
    exact List.map_id _
  refine ⟨hmap, ?_, ?_⟩
  · have hh := congrArg List.head? hmap
    rw [List.head?_map] at hh
    rw [hh, linspace_head]
  · intro hend st hmem
    simp only [NBodyPropagator.propagate_range, if_pos hs, linspace] at hmem
    rcases List.mem_map.mp hmem with ⟨t, htmem, rfl⟩
    rcases List.mem_map.mp htmem with ⟨i, hirange, rfl⟩
    have hi : i < m + 1 := List.mem_range.mp hirange
    simp only
    by_cases hm : m = 0
    · subst hm
      have hi0 : i = 0 := by omega
      subst hi0
      norm_num
      exact hend
    · have hm1 : 1 ≤ m := by omega
      have hdpos : (0 : ℝ) < ((m + 1 : ℕ) : ℝ) - 1 := by
        push_cast
        have : (1 : ℝ) ≤ (m : ℝ) := by exact_mod_cast hm1
        linarith
      have hcast : ((i : ℕ) : ℝ) ≤ ((m + 1 : ℕ) : ℝ) - 1 := by
        push_cast
        have : (i : ℝ) ≤ (m : ℝ) := by exact_mod_cast Nat.lt_succ_iff.mp hi
        linarith
      constructor
      · have h1 : 0 ≤ (end_time - initial_time) * i / (((m + 1 : ℕ) : ℝ) - 1) :=
          div_nonneg (mul_nonneg (by linarith) (Nat.cast_nonneg i)) (le_of_lt hdpos)
        linarith
      · have h2 : (end_time - initial_time) * i / (((m + 1 : ℕ) : ℝ) - 1) ≤
            end_time - initial_time := by
          rw [div_le_iff₀ hdpos]
          have := mul_le_mul_of_nonneg_left hcast (show (0:ℝ) ≤ end_time - initial_time
            by linarith)
          linarith
        linarith

/-- Witness for C10 amended at epoch 1, requested range `[0, 2]`, 2 points. -/
theorem propagate_range_clamps_start_witness :
    ((NBodyPropagator.propagate_range (fun _ => ((0, 0, 0), (0, 0, 0))) 1 0 2 2).map
        StateVector.time = linspace 1 2 2) ∧
    ((NBodyPropagator.propagate_range (fun _ => ((0, 0, 0), (0, 0, 0))) 1 0 2 2).head?.map
        StateVector.time = some 1) ∧
    ((1 : ℝ) ≤ 2 →
      ∀ st ∈ NBodyPropagator.propagate_range (fun _ => ((0, 0, 0), (0, 0, 0))) 1 0 2 2,
        (1 : ℝ) ≤ st.time ∧ st.time ≤ 2) :=
  propagate_range_clamps_start (fun _ => ((0, 0, 0), (0, 0, 0))) 1 0 2 2
    zero_lt_one (by decide)

/-- Keys of a designation-keyed pair list are the designations. -/
theorem map_fst_pairs {β : Type} (f : Comet → β) (l : List Comet) :
    ((l.map fun c => (c.designation, f c)).map Prod.fst) =
      l.map Comet.designation := by
  rw [List.map_map]
  rfl

/-- Filtering a comet list keeps its designations pairwise distinct. -/
theorem nodup_designations_filter (q : Comet → Bool) (l : List Comet)
    (hnd : (l.map Comet.designation).Nodup) :
    ((l.filter q).map Comet.designation).Nodup :=
  hnd.sublist (List.Sublist.map _ (List.filter_sublist l))

/-- C7: the parallel batch produces one `TrajectoryResult` per comet, keyed
by its designation, and each comet's entry is exactly its own
`calculate_single_trajectory` result — independent of every other object in
the batch, so one object's failure cannot affect the others.  Moreover a
missing-elements comet and a comet whose propagation raises are captured as
`success = false` with the error recorded in that object's own result. -/
theorem batch_per_object_isolation
    (propagate : KeplerianElements → ℚ → ℚ → ℕ → Except String (List StateVector))
    (comets : List Comet) (start_time end_time : ℚ) (num_points : ℕ)
    (hnd : (comets.map Comet.designation).Nodup) :
    ∀ c ∈ comets,
      dictLookup
          (calculate_trajectories_parallel propagate comets start_time end_time num_points)
          c.designation =
        some (calculate_single_trajectory propagate c start_time end_time num_points) ∧
      (c.elements = none →
        (calculate_single_trajectory propagate c start_time end_time num_points).success
            = false ∧
        (calculate_single_trajectory propagate c start_time end_time num_points).error
            = some "No orbital elements") ∧
      (∀ el msg, c.elements = some el →
        propagate el start_time end_time num_points = Except.error msg →
        (calculate_single_trajectory propagate c start_time end_time num_points).success
            = false ∧
        (calculate_single_trajectory propagate c start_time end_time num_points).error
            = some msg) := by
  intro c hc
  refine ⟨?_, ?_, ?_⟩
  · rw [calculate_trajectories_parallel, calculate_trajectories_sequential, dictOfList]
    apply foldl_dictInsert_lookup_mem
    · rw [map_fst_pairs]
      exact hnd
    · exact List.mem_map_of_mem _ hc
  · intro h
    simp [calculate_single_trajectory, h]
  · intro el msg hel hprop
    simp [calculate_single_trajectory, hel, hprop]

/-- Witness for C7: a two-comet batch where the first has no elements and the
second's propagation fails; each failure is captured in its own entry. -/
theorem batch_per_object_isolation_witness :
    dictLookup
        (calculate_trajectories_parallel (fun _ _ _ _ => Except.error "integration failure")
          [⟨"1P", none⟩, ⟨"2P", some ⟨1, 0, 0, 0, 0, 0, 0⟩⟩] 0 1 2)
        "1P" =
      some (calculate_single_trajectory (fun _ _ _ _ => Except.error "integration failure")
        ⟨"1P", none⟩ 0 1 2) ∧
    dictLookup
        (calculate_trajectories_parallel (fun _ _ _ _ => Except.error "integration failure")
          [⟨"1P", none⟩, ⟨"2P", some ⟨1, 0, 0, 0, 0, 0, 0⟩⟩] 0 1 2)
        "2P" =
      some (calculate_single_trajectory (fun _ _ _ _ => Except.error "integration failure")
        ⟨"2P", some ⟨1, 0, 0, 0, 0, 0, 0⟩⟩ 0 1 2) :=
  ⟨(batch_per_object_isolation (fun _ _ _ _ => Except.error "integration failure")
      [⟨"1P", none⟩, ⟨"2P", some ⟨1, 0, 0, 0, 0, 0, 0⟩⟩] 0 1 2 (by decide)
      ⟨"1P", none⟩ (by simp)).1,
   (batch_per_object_isolation (fun _ _ _ _ => Except.error "integration failure")
      [⟨"1P", none⟩, ⟨"2P", some ⟨1, 0, 0, 0, 0, 0, 0⟩⟩] 0 1 2 (by decide)
      ⟨"2P", some ⟨1, 0, 0, 0, 0, 0, 0⟩⟩ (by simp)).1⟩

/-- C9: every entry the batch calculator ever stores in its cache has
`success = true` — `calculate` inserts only successful results and otherwise
preserves the invariant, `clear_cache` trivially preserves it, and
`get_cache_size` is a pure read.  Consequently a comet whose computation
fails leaves its cache key exactly as it was, so an identical later request
finds no entry and recomputes it. -/
theorem cache_success_invariant
    (self : BatchTrajectoryCalculator)
    (propagate : KeplerianElements → ℚ → ℚ → ℕ → Except String (List StateVector))
    (comets : List Comet) (start_time end_time : ℚ) (num_points : ℕ)
    (method : String)
    (hok : CacheOK self.cache)
    (hnd : (comets.map Comet.designation).Nodup) :
    CacheOK
      ((self.calculate propagate comets start_time end_time num_points method).2.cache) ∧
    CacheOK self.clear_cache.cache ∧
    (∀ c ∈ comets,
      (calculate_single_trajectory propagate c start_time end_time num_points).success
          = false →
      dictLookup
          ((self.calculate propagate comets start_time end_time num_points method).2.cache)
          (get_cache_key c.designation start_time end_time num_points method) =
        dictLookup self.cache
          (get_cache_key c.designation start_time end_time num_points method)) := by
  refine ⟨?_, ?_, ?_⟩
  · simp only [BatchTrajectoryCalculator.calculate]
    by_cases hen : self.cache_enabled = true
    · simp only [hen, if_true]
      exact cacheFold_preserves_CacheOK
        (fun d => get_cache_key d start_time end_time num_points method) _ _ hok
    · simp only [hen, if_false]
      exact hok
  · intro p hp
    simp [BatchTrajectoryCalculator.clear_cache] at hp
  · intro c hc hfail
    simp only [BatchTrajectoryCalculator.calculate]
    by_cases hen : self.cache_enabled = true
    · simp only [hen, if_true]
      have hnodupkeys :
          (((comets.filter fun c =>
              (dictLookup self.cache
                (get_cache_key c.designation start_time end_time num_points method)).isNone).map
            fun c =>
              (c.designation,
                calculate_single_trajectory propagate c start_time end_time num_points)).map
            Prod.fst).Nodup := by
        rw [map_fst_pairs]
        exact nodup_designations_filter _ _ hnd
      rw [dictOfList_eq_self _ hnodupkeys]
      apply cacheFold_lookup_untouched
        (fun d => get_cache_key d start_time end_time num_points method)
      intro p hp hps hkeyeq
      rcases List.mem_map.mp hp with ⟨c', hc', rfl⟩
      have hc'mem : c' ∈ comets := List.mem_of_mem_filter hc'
      have hdeq : c'.designation = c.designation :=
        get_cache_key_inj_designation _ _ _ _ hkeyeq
      have hcc : c' = c := List.inj_on_of_nodup_map hnd hc'mem hc hdeq
      rw [hcc] at hps
      rw [hfail] at hps
      exact Bool.false_ne_true hps
    · simp [hen]

/-- Witness for C9: a single failing comet (no elements) on a fresh
calculator leaves the cache empty at its key. -/
theorem cache_success_invariant_witness :
    CacheOK
      ((BatchTrajectoryCalculator.calculate ⟨true, []⟩
        (fun _ _ _ _ => Except.error "boom") [⟨"C", none⟩] 0 1 2 "twobody").2.cache) ∧
    dictLookup
        ((BatchTrajectoryCalculator.calculate ⟨true, []⟩
          (fun _ _ _ _ => Except.error "boom") [⟨"C", none⟩] 0 1 2 "twobody").2.cache)
        (get_cache_key "C" 0 1 2 "twobody") =
      dictLookup ([] : List (String × TrajectoryResult))
        (get_cache_key "C" 0 1 2 "twobody") := by
  have h := cache_success_invariant ⟨true, []⟩ (fun _ _ _ _ => Except.error "boom")
    [⟨"C", none⟩] 0 1 2 "twobody" (fun p hp => absurd hp (List.not_mem_nil p))
    (by decide)
  exact ⟨h.1, h.2.2 ⟨"C", none⟩ (by simp) rfl⟩

theorem dictLookup_nil {α : Type} (k : String) :
    dictLookup ([] : List (String × α)) k = none := rfl

/-- Lookup in the results dict of one `calculate` call: when every cached
entry consulted agrees with a fresh computation (in particular when the
cache is empty), every comet's entry is its own fresh
`calculate_single_trajectory` result. -/
theorem calculate_lookup_of_coherent
    (self : BatchTrajectoryCalculator)
    (propagate : KeplerianElements → ℚ → ℚ → ℕ → Except String (List StateVector))
    (comets : List Comet) (start_time end_time : ℚ) (num_points : ℕ)
    (method : String)
    (hnd : (comets.map Comet.designation).Nodup)
    (coh : ∀ c ∈ comets, ∀ r,
      dictLookup self.cache
          (get_cache_key c.designation start_time end_time num_points method) = some r →
      r = calculate_single_trajectory propagate c start_time end_time num_points) :
    ∀ c ∈ comets,
      dictLookup
          ((self.calculate propagate comets start_time end_time num_points method).1)
          c.designation =
        some (calculate_single_trajectory propagate c start_time end_time num_points) := by
  intro c hc
  simp only [BatchTrajectoryCalculator.calculate]
  by_cases hen : self.cache_enabled = true
  · simp only [hen, if_true]
    have hndk :
        (((comets.filter fun c =>
            (dictLookup self.cache
              (get_cache_key c.designation start_time end_time num_points method)).isNone).map
          fun c =>
            (c.designation,
              calculate_single_trajectory propagate c start_time end_time num_points)).map
          Prod.fst).Nodup := by
      rw [map_fst_pairs]
      exact nodup_designations_filter _ _ hnd
    rw [dictOfList_eq_self _ hndk]
    cases hc0 : dictLookup self.cache
        (get_cache_key c.designation start_time end_time num_points method) with
    | none =>
      have hcP : c ∈ comets.filter fun c =>
          (dictLookup self.cache
            (get_cache_key c.designation start_time end_time num_points method)).isNone :=
        List.mem_filter.mpr ⟨hc, by simp [hc0]⟩
      exact foldl_dictInsert_lookup_mem _ _ _ _ hndk (List.mem_map_of_mem _ hcP)
    | some r =>
      have hr : r = calculate_single_trajectory propagate c start_time end_time num_points :=
        coh c hc r hc0
      have hnotin : ∀ p ∈ (comets.filter fun c =>
          (dictLookup self.cache
            (get_cache_key c.designation start_time end_time num_points method)).isNone).map
          fun c =>
            (c.designation,
              calculate_single_trajectory propagate c start_time end_time num_points),
          p.1 ≠ c.designation := by
        intro p hp
        rcases List.mem_map.mp hp with ⟨c', hc', rfl⟩
        intro hdeq
        have hcc : c' = c :=
          List.inj_on_of_nodup_map hnd (List.mem_of_mem_filter hc') hc hdeq
        have hP := (List.mem_filter.mp hc').2
        rw [hcc] at hP
        simp [hc0] at hP
      rw [foldl_dictInsert_lookup_not_mem _ _ _ hnotin]
      have hhit : (c.designation, r) ∈ comets.filterMap fun c =>
          (dictLookup self.cache
            (get_cache_key c.designation start_time end_time num_points method)).map
            fun r => (c.designation, r) :=
        List.mem_filterMap.mpr ⟨c, hc, by simp [hc0]⟩
      have hndhits : ((comets.filterMap fun c =>
          (dictLookup self.cache
            (get_cache_key c.designation start_time end_time num_points method)).map
            fun r => (c.designation, r)).map Prod.fst).Nodup := by
        refine hnd.sublist (filterMap_fst_sublist _ _ ?_)
        intro c' p hp
        rcases Option.map_eq_some'.mp hp with ⟨r', _, rfl⟩
        rfl
      rw [dictOfList, foldl_dictInsert_lookup_mem _ _ _ _ hndhits hhit, hr]
  · simp only [hen, if_false]
    simp only [Bool.not_eq_true] at hen
    simp only [hen, Bool.false_eq_true, if_false]
    have hndk : (((comets.map fun c =>
        (c.designation,
          calculate_single_trajectory propagate c start_time end_time num_points)).map
        Prod.fst).Nodup) := by
      rw [map_fst_pairs]
      exact hnd
    rw [dictOfList_eq_self _ hndk]
    exact foldl_dictInsert_lookup_mem _ _ _ _ hndk
      (List.mem_map_of_mem _ hc)

/-- After one `calculate` call on a *fresh* calculator (empty cache), the
cache holds exactly the successful fresh results, under the composite keys. -/
theorem calculate_fresh_cache_lookup
    (propagate : KeplerianElements → ℚ → ℚ → ℕ → Except String (List StateVector))
    (comets : List Comet) (start_time end_time : ℚ) (num_points : ℕ)
    (method : String)
    (hnd : (comets.map Comet.designation).Nodup) :
    ∀ c ∈ comets,
      dictLookup
          ((BatchTrajectoryCalculator.calculate ⟨true, []⟩ propagate comets
            start_time end_time num_points method).2.cache)
          (get_cache_key c.designation start_time end_time num_points method) =
        if (calculate_single_trajectory propagate c start_time end_time num_points).success
        then some (calculate_single_trajectory propagate c start_time end_time num_points)
        else none := by
  intro c hc
  simp only [BatchTrajectoryCalculator.calculate, dictLookup_nil, Option.map_none',
    Option.isNone_none, if_true, List.filter_true]
  have hndk : (((comets.map fun c =>
      (c.designation,
        calculate_single_trajectory propagate c start_time end_time num_points)).map
      Prod.fst).Nodup) := by
    rw [map_fst_pairs]
    exact hnd
  rw [dictOfList_eq_self _ hndk]
  have h := cacheFold_lookup_mem
    (fun d => get_cache_key d start_time end_time num_points method)
    (fun d₁ d₂ hk => get_cache_key_inj_designation start_time end_time num_points method hk)
    ((comets.map fun c =>
      (c.designation,
        calculate_single_trajectory propagate c start_time end_time num_points)))
    [] c.designation
    (calculate_single_trajectory propagate c start_time end_time num_points)
    hndk (List.mem_map_of_mem _ hc)
  rw [h, dictLookup_nil]

/-- Counterexample to C6 as stated: caching is keyed by the colon-joined
string `f"{designation}:{start}:{end}:{points}:{method}"`, and that encoding
is not injective in the composite `(designation, start, end, n_points,
method)`: two different composites collide when the designation or method
contains `:`, so results are not cached under *exactly* the composite key —
a hit can serve an entry stored for a different composite. -/
theorem cache_key_collision :
    (("A", (1 : ℚ), (2 : ℚ), (3 : ℕ), "x:1.0:2.0:3:y") ≠
      ("A:1.0:2.0:3:x", (1 : ℚ), (2 : ℚ), (3 : ℕ), "y")) ∧
    get_cache_key "A" 1 2 3 "x:1.0:2.0:3:y" =
      get_cache_key "A:1.0:2.0:3:x" 1 2 3 "y" := by
  constructor
  · decide
  · decide

/-- C6 amended: caching is keyed by the joined string
`designation:start:end:n_points:method` (injective in the designation for a
fixed request, but collidable across requests).  For a calculator whose
cache entries are coherent with fresh computation — in particular any fresh
calculator (empty cache, caching enabled) — issuing the same request twice
yields identical results: both the first call's entry and the second call's
cache-hit entry for every comet equal the comet's own fresh
`calculate_single_trajectory` result. -/
theorem calculate_repeat_deterministic
    (propagate : KeplerianElements → ℚ → ℚ → ℕ → Except String (List StateVector))
    (comets : List Comet) (start_time end_time : ℚ) (num_points : ℕ)
    (method : String)
    (hnd : (comets.map Comet.designation).Nodup) :
    ∀ c ∈ comets,
      dictLookup
          ((BatchTrajectoryCalculator.calculate ⟨true, []⟩ propagate comets
            start_time end_time num_points method).1)
          c.designation =
        some (calculate_single_trajectory propagate c start_time end_time num_points) ∧
      dictLookup
          (((BatchTrajectoryCalculator.calculate ⟨true, []⟩ propagate comets
              start_time end_time num_points method).2.calculate propagate comets
            start_time end_time num_points method).1)
          c.designation =
        some (calculate_single_trajectory propagate c start_time end_time num_points) := by
  intro c hc
  constructor
  · refine calculate_lookup_of_coherent ⟨true, []⟩ propagate comets
      start_time end_time num_points method hnd ?_ c hc
    intro c' _ r hr
    rw [dictLookup_nil] at hr
    exact absurd hr (Option.noConfusion)
  · refine calculate_lookup_of_coherent _ propagate comets
      start_time end_time num_points method hnd ?_ c hc
    intro c' hc' r hr
    rw [calculate_fresh_cache_lookup propagate comets start_time end_time num_points
      method hnd c' hc'] at hr
    by_cases hs : (calculate_single_trajectory propagate c' start_time end_time
        num_points).success
    · rw [if_pos hs] at hr
      exact (Option.some_inj.mp hr).symm
    · rw [if_neg hs] at hr
      exact absurd hr (Option.noConfusion)

/-- Witness for C6 amended: one comet without elements, the same request
twice on a fresh calculator. -/
theorem calculate_repeat_deterministic_witness :
    dictLookup
        ((BatchTrajectoryCalculator.calculate ⟨true, []⟩
          (fun _ _ _ _ => Except.error "boom") [⟨"C", none⟩] 0 1 2 "twobody").1)
        "C" =
      some (calculate_single_trajectory (fun _ _ _ _ => Except.error "boom")
        ⟨"C", none⟩ 0 1 2) ∧
    dictLookup
        (((BatchTrajectoryCalculator.calculate ⟨true, []⟩
            (fun _ _ _ _ => Except.error "boom") [⟨"C", none⟩] 0 1 2
            "twobody").2.calculate (fun _ _ _ _ => Except.error "boom")
          [⟨"C", none⟩] 0 1 2 "twobody").1)
        "C" =
      some (calculate_single_trajectory (fun _ _ _ _ => Except.error "boom")
        ⟨"C", none⟩ 0 1 2) :=
  calculate_repeat_deterministic (fun _ _ _ _ => Except.error "boom")
    [⟨"C", none⟩] 0 1 2 "twobody" (by decide) ⟨"C", none⟩ (by simp)
